import Mathlib

/-
Verification of the Cloud_optimized repository's LLM-output processing
pipeline: a shallow embedding in Lean 4 of the pure, deterministic parts of
`utils.py`, `profile_extractor.py`, `billing_generator.py` and
`cost_analyser.py`, together with theorems about the properties the
specification states of them.

Modelling conventions:
- Python strings are modelled as `List Char`; Python `str.find`, `str.rfind`,
  slicing, `strip`, `lower` and substring containment are reimplemented below
  with their Python semantics (including `find` returning the first match and
  `rfind` the last).
- Values coming out of `json.loads` are modelled by the inductive `Json` type;
  Python dicts with string keys are modelled as insertion-ordered association
  lists (`Dict`).  JSON numbers are modelled as exact rationals (`ℚ`): no
  claim under analysis depends on binary floating-point rounding, only on
  sign tests, comparisons and equalities between numbers produced by one and
  the same arithmetic, so exact rationals are a faithful stand-in.
- External effects (the Groq chat-completion backend, `time.sleep`,
  `json.loads` itself, console printing) are not repository code; they enter
  the embedding as explicit parameters (an attempt-indexed outcome function
  for the backend, an `Except`-valued parse result for `json.loads`) or as
  recorded traces (the list of sleep durations).  Everything downstream of
  them — fence stripping, span selection, record validation and repair,
  fallback construction, summary aggregation — is translated statement by
  statement from the Python source.
- Python `bool` is an `int` subclass: `isinstance(True, (int, float))` holds
  and `True`/`False` compare as `1`/`0`.  The embedding keeps a separate
  `Json.bool` constructor and gives it numeric value `1`/`0` exactly where
  the Python code would use it numerically.
-/

namespace CloudOpt

/- ===================================================================
   Python string primitives, on `List Char`
   =================================================================== -/

/-- Python `str.strip` whitespace class (ASCII part): space, tab, newline,
carriage return, vertical tab, form feed.  The same class backs `\s` in the
`re` module for ASCII text. -/
def pyIsSpace (c : Char) : Bool :=
  c == ' ' || c == '\t' || c == '\n' || c == '\r' || c == '\x0b' || c == '\x0c'

/-- Python `str.strip()`: drop leading and trailing whitespace. -/
def pyStrip (s : List Char) : List Char :=
  ((s.dropWhile pyIsSpace).reverse.dropWhile pyIsSpace).reverse

/-- Python `str.lower()` (ASCII behaviour). -/
def pyLower (s : List Char) : List Char :=
  s.map Char.toLower

/-- Python `text.find(ch)`: index of the first occurrence, `none` for -1. -/
def pyFindChar (s : List Char) (c : Char) : Option Nat :=
  s.findIdx? (· == c)

/-- Python `text.rfind(ch)`: index of the last occurrence, `none` for -1. -/
def pyRFindChar (s : List Char) (c : Char) : Option Nat :=
  match s.reverse.findIdx? (· == c) with
  | none => none
  | some i => some (s.length - 1 - i)

/-- Helper for `pyFindSub`: first index `≥ i` at which `pat` occurs. -/
def findSubAux (s pat : List Char) (i : Nat) : Option Nat :=
  match s with
  | [] => if pat = [] then some i else none
  | _ :: rest => if pat.isPrefixOf s then some i else findSubAux rest pat (i + 1)

/-- Python `text.find(pat)`: index of the first occurrence of `pat`. -/
def pyFindSub (s pat : List Char) : Option Nat :=
  findSubAux s pat 0

/-- Python `text.find(pat, start)`: first occurrence at or after `start`. -/
def pyFindSubFrom (s pat : List Char) (start : Nat) : Option Nat :=
  (findSubAux (s.drop start) pat 0).map (· + start)

/-- Python `pat in text` (substring containment). -/
def containsSub (s pat : List Char) : Bool :=
  (pyFindSub s pat).isSome

/-- Python `text[a:b]` for non-negative `a ≤ b` (clamped, as in Python). -/
def pySlice (s : List Char) (a b : Nat) : List Char :=
  (s.drop a).take (b - a)

/- ===================================================================
   utils.extract_json_from_text
   =================================================================== -/

/-- The "```json" opening fence marker searched for by
`extract_json_from_text` (`utils.py` line 80). -/
def fenceJson : List Char := "```json".toList

/-- The bare "```" fence marker (`utils.py` lines 83, 86, 88, 89). -/
def fenceMark : List Char := "```".toList

/-- Fence-stripping phase of `extract_json_from_text` (`utils.py`
lines 79-91): if "```json" occurs, slice between it and the next "```";
else if "```" occurs, slice between the first and second "```"; when the
closing fence is missing the text is left unchanged. -/
def stripFences (text : List Char) : List Char :=
  if containsSub text fenceJson then
    let start := (pyFindSub text fenceJson).getD 0 + 7
    match pyFindSubFrom text fenceMark start with
    | some e => pyStrip (pySlice text start e)
    | none => text
  else if containsSub text fenceMark then
    let start := (pyFindSub text fenceMark).getD 0 + 3
    match pyFindSubFrom text fenceMark start with
    | some e => pyStrip (pySlice text start e)
    | none => text
  else text

/-- Array-span branch of `extract_json_from_text` (`utils.py`
lines 93-105): when a `[` exists and comes before any `{` (condition
`array_start < obj_start or obj_start == -1`) and the last `]` lies
strictly after it, return that span stripped; in every other case this
branch returns nothing and control falls through to the object branch. -/
def arraySpanRes (text : List Char) : Option (List Char) :=
  match pyFindChar text '[' with
  | none => none
  | some a =>
    if (match pyFindChar text '\x7b' with
        | none => true
        | some o => decide (a < o)) then
      match pyRFindChar text ']' with
      | none => none
      | some b => if a < b then some (pyStrip (pySlice text a (b + 1))) else none
    else none

/-- Object-span fall-through of `extract_json_from_text` (`utils.py`
lines 107-112): the first `{` to the last `}` when that span is
well-ordered, else the whole stripped text. -/
def objSpanRes (text : List Char) : List Char :=
  match pyFindChar text '\x7b', pyRFindChar text '\x7d' with
  | some o, some e => if o < e then pyStrip (pySlice text o (e + 1)) else pyStrip text
  | _, _ => pyStrip text

/-- Span-selection phase of `extract_json_from_text` (`utils.py`
lines 93-112): the array branch when it returns, else the object
fall-through. -/
def pickSpan (text : List Char) : List Char :=
  match arraySpanRes text with
  | some r => r
  | none => objSpanRes text

/-- Shape test used to state the fenced-block property: does `t` begin
with `a` and end with `b` (with length at least 2)?  Every well-formed
top-level JSON object (resp. array), once trimmed, starts with `{` and
ends with `}` (resp. `[` and `]`), so this is a consequence of — hence
weaker than, giving a stronger theorem than — well-formedness. -/
def startsEnds (t : List Char) (a b : Char) : Bool :=
  match t with
  | [] => false
  | c :: rest =>
    c == a && (match rest.getLast? with
               | some d => d == b
               | none => false)

/-- `utils.extract_json_from_text` (`utils.py` lines 65-112): empty input
returns empty; otherwise strip markdown fences, then select the array or
object span. -/
def extract_json_from_text (text : List Char) : List Char :=
  if text = [] then [] else pickSpan (stripFences text)

/- ===================================================================
   JSON values and Python dict semantics
   =================================================================== -/

/-- Values produced by `json.loads`.  Numbers are exact rationals (see the
header note on floating point). -/
inductive Json where
  | null : Json
  | bool : Bool → Json
  | num : ℚ → Json
  | str : List Char → Json
  | arr : List Json → Json
  | obj : List (List Char × Json) → Json

/-- A Python dict with string keys, as an insertion-ordered association
list (the shape `json.loads` yields for a JSON object). -/
abbrev Dict := List (List Char × Json)

/-- Python `d[k]` / `d.get(k)`: value at the first matching key. -/
def dictGet (d : Dict) (k : List Char) : Option Json :=
  match d with
  | [] => none
  | (k', v) :: rest => if k' = k then some v else dictGet rest k

/-- Python `k in d` for a dict. -/
def dictHas (d : Dict) (k : List Char) : Bool :=
  (dictGet d k).isSome

/-- Python `d[k] = v`: replace in place when the key exists (preserving
insertion order), append otherwise. -/
def dictSet (d : Dict) (k : List Char) (v : Json) : Dict :=
  match d with
  | [] => [(k, v)]
  | (k', v') :: rest => if k' = k then (k, v) :: rest else (k', v') :: dictSet rest k v

/-- Numeric value of a Json leaf where Python would use it in arithmetic or
a comparison: numbers are themselves, booleans count as 1/0 (Python `bool`
is an `int` subclass), everything else is not a number. -/
def jsonNumVal? : Json → Option ℚ
  | .num q => some q
  | .bool true => some 1
  | .bool false => some 0
  | _ => none

/- ===================================================================
   Python float(...) parsing (the subset the pipeline can meet)
   =================================================================== -/

/-- Decimal value of a digit string. -/
def digitsVal (ds : List Char) : Nat :=
  ds.foldl (fun a c => a * 10 + (c.toNat - '0'.toNat)) 0

/-- Python `float(s)` on the syntax the pipeline produces: optional
surrounding whitespace, optional sign, digits with at most one decimal
point and at least one digit.  Exponent and `inf`/`nan` spellings are
accepted by Python but never reached by the repository's inputs of
interest; no claim depends on them, so they are omitted. -/
def pyFloat? (s0 : List Char) : Option ℚ :=
  let s := pyStrip s0
  let signAndRest : ℚ × List Char :=
    match s with
    | '-' :: rest => (-1, rest)
    | '+' :: rest => (1, rest)
    | _ => (1, s)
  let sign := signAndRest.1
  let s1 := signAndRest.2
  let intPart := s1.takeWhile Char.isDigit
  let rest1 := s1.dropWhile Char.isDigit
  match rest1 with
  | [] => if intPart = [] then none else some (sign * (digitsVal intPart : ℚ))
  | '.' :: rest2 =>
    let fracPart := rest2.takeWhile Char.isDigit
    let rest3 := rest2.dropWhile Char.isDigit
    if rest3 = [] ∧ ¬(intPart = [] ∧ fracPart = []) then
      some (sign * ((digitsVal intPart : ℚ) + (digitsVal fracPart : ℚ) / (10 ^ fracPart.length)))
    else none
  | _ => none

/-- Python `s.replace(",", "")`. -/
def removeCommas (s : List Char) : List Char :=
  s.filter (fun c => !(c == ','))

/- ===================================================================
   profile_extractor.call_llm
   =================================================================== -/

/-- Outcome of one `call_llm` invocation: the `ValueError` for a missing
API key, an exception re-raised from the backend, or a returned value
(`none` models the implicit `return None` when the loop body never runs,
i.e. `retries = 0`). -/
inductive CallOutcome (ε α : Type) where
  | configError : CallOutcome ε α
  | raised : ε → CallOutcome ε α
  | returned : Option α → CallOutcome ε α

/-- Observable behaviour of one `call_llm` invocation: how many backend
attempts were made, the argument of each `time.sleep`, and the outcome. -/
structure CallTrace (ε α : Type) where
  attempts : Nat
  sleeps : List Nat
  outcome : CallOutcome ε α

/-- The `for attempt in range(retries)` loop of `call_llm`
(`profile_extractor.py` lines 34-52), with the backend modelled as the
attempt-indexed outcome function `f`.  On success the value is returned;
on failure the error is re-raised when `attempt == retries - 1`, else the
code sleeps 2 seconds and retries.  `rem` is the number of loop iterations
still available (`retries - attempt`). -/
def callLoop (f : Nat → Except ε α) (retries : Nat) : Nat → Nat → CallTrace ε α
  | 0, _ => ⟨0, [], .returned none⟩
  | rem + 1, attempt =>
    match f attempt with
    | .ok a => ⟨1, [], .returned (some a)⟩
    | .error e =>
      if attempt = retries - 1 then ⟨1, [], .raised e⟩
      else
        let t := callLoop f retries rem (attempt + 1)
        ⟨t.attempts + 1, 2 :: t.sleeps, t.outcome⟩

/-- `profile_extractor.call_llm` (lines 24-52): a missing `GROQ_API_KEY`
raises `ValueError` before any attempt; otherwise the retry loop runs. -/
def call_llm (hasKey : Bool) (f : Nat → Except ε α) (retries : Nat := 2) : CallTrace ε α :=
  if hasKey then callLoop f retries retries 0
  else ⟨0, [], .configError⟩

/- ===================================================================
   profile_extractor.extract_project_profile (model path repair)
   =================================================================== -/

/-- Profile dict keys used by `profile_extractor.py`. -/
def nameKey : List Char := "name".toList

/-- Key "budget_inr_per_month". -/
def budgetKey : List Char := "budget_inr_per_month".toList

/-- Key "description". -/
def descKey : List Char := "description".toList

/-- Key "tech_stack". -/
def techKey : List Char := "tech_stack".toList

/-- Key "non_functional_requirements". -/
def nfrKey : List Char := "non_functional_requirements".toList

/-- The five-slot empty tech stack literal built at
`profile_extractor.py` lines 112-118 (and again at lines 166-172). -/
def defaultTechStack : Json :=
  Json.obj
    [(("frontend".toList), Json.null), (("backend".toList), Json.null),
     (("database".toList), Json.null), (("proxy".toList), Json.null),
     (("hosting".toList), Json.null)]

/-- `float(str(v).replace(',', ''))` applied to a parsed JSON value
(`profile_extractor.py` line 106).  Numbers round-trip through `str`;
strings are parsed after comma removal; `str` of `None`/`True`/`False`
and of list/dict reprs never parses as a float, so those raise and are
modelled as `none`. -/
def coerceBudget : Json → Option ℚ
  | .num q => some q
  | .str s => pyFloat? (removeCommas s)
  | _ => none

/-- Value-lowercasing step of the tech-stack normalisation loop
(`profile_extractor.py` lines 126-128): string values are lowercased,
everything else is untouched. -/
def normalizeTechValue : Json → Json
  | .str s => .str (pyLower s)
  | v => v

/-- The tech-stack normalisation loop itself (iterates the dict items). -/
def normalizeTech : Json → Json
  | .obj fields => .obj (fields.map (fun kv => (kv.1, normalizeTechValue kv.2)))
  | v => v

/-- Lines 100-101: `if 'name' not in profile: profile['name'] = "Cloud
Project"`. -/
def fixName (profile : Dict) : Dict :=
  if dictHas profile nameKey then profile
  else dictSet profile nameKey (Json.str (("Cloud Project").toList))

/-- Lines 103-106: default the budget to 5000 when missing, otherwise
`float(str(v).replace(',', ''))`; a coercion failure raises `ValueError`
(`none` here). -/
def fixBudget (profile : Dict) : Option Dict :=
  match dictGet profile budgetKey with
  | none => some (dictSet profile budgetKey (Json.num 5000))
  | some v => (coerceBudget v).map (fun q => dictSet profile budgetKey (Json.num q))

/-- Lines 108-109: default the description to the first 100 characters of
the raw description. -/
def fixDescription (desc : List Char) (profile : Dict) : Dict :=
  if dictHas profile descKey then profile
  else dictSet profile descKey (Json.str (desc.take 100))

/-- Lines 111-118: replace a missing or non-dict tech stack by the
five-slot default; a model-supplied dict is kept. -/
def fixTech (profile : Dict) : Dict :=
  match dictGet profile techKey with
  | some (.obj _) => profile
  | _ => dictSet profile techKey defaultTechStack

/-- Lines 120-123: default the requirement list to `[]` when missing,
wrap a non-list value into a one-element list. -/
def fixNfr (profile : Dict) : Dict :=
  match dictGet profile nfrKey with
  | none => dictSet profile nfrKey (Json.arr [])
  | some (.arr _) => profile
  | some v => dictSet profile nfrKey (Json.arr [v])

/-- Lines 126-128: write back the tech stack with its string values
lowercased. -/
def normalizeTechStep (profile : Dict) : Dict :=
  match dictGet profile techKey with
  | some ts => dictSet profile techKey (normalizeTech ts)
  | none => profile

/-- Validate-and-fix block of `extract_project_profile`
(`profile_extractor.py` lines 97-133), applied to the value `json.loads`
returned, as the composition of the numbered steps above in source order.
A non-dict value always ends in a `TypeError` (membership tests or item
assignment on a non-dict), which the enclosing `except Exception` turns
into the fallback, so it is an error here. -/
def fixProfile (desc : List Char) : Json → Except (List Char) Dict
  | .obj profile0 =>
    match fixBudget (fixName profile0) with
    | none => .error ("could not convert budget to float".toList)
    | some p2 => .ok (normalizeTechStep (fixNfr (fixTech (fixDescription desc p2))))
  | _ => .error ("TypeError on non-dict profile".toList)

/- ===================================================================
   profile_extractor.create_fallback_profile
   =================================================================== -/

/-- Does `s`, after its leading `\s*` run, start with one of the literals
"rupees", "inr", "rs"?  This is the tail of the budget regex
`(\d+)\s*(?:rupees|inr|rs)` after the digit group. -/
def budgetKeywordAfter (s : List Char) : Bool :=
  let r := s.dropWhile pyIsSpace
  ("rupees".toList).isPrefixOf r || ("inr".toList).isPrefixOf r ||
    ("rs".toList).isPrefixOf r

/-- `re.search(r'(\d+)\s*(?:rupees|inr|rs)', s)` and `int(group(1))`
(`profile_extractor.py` lines 161-163): the leftmost position at which a
digit run, optionally followed by whitespace, is followed by one of the
keywords; the returned number is that digit run.  Backtracking inside the
digit group can never help (a shorter digit prefix leaves a digit where a
keyword letter is required), so the greedy full run is the only candidate
at each start position. -/
def budgetSearch : List Char → Option Nat
  | [] => none
  | c :: rest =>
    if c.isDigit then
      if budgetKeywordAfter ((c :: rest).dropWhile Char.isDigit) then
        some (digitsVal ((c :: rest).takeWhile Char.isDigit))
      else budgetSearch rest
    else budgetSearch rest

/-- First tech-stack keyword match in a list of (keyword, value) pairs:
models an `if 'kw1' in d: v = x1 elif 'kw2' in d: ...` chain. -/
def firstKeyword (dl : List Char) : List (List Char × List Char) → Json
  | [] => Json.null
  | (kw, v) :: rest => if containsSub dl kw then Json.str v else firstKeyword dl rest

/-- `profile_extractor.create_fallback_profile` (lines 145-227): budget by
regex search — gated on the substring "budget" being present — with
default 5000; tech stack by keyword chains over the lowercased
description; requirements by substring tests; all assembled in the
insertion order of the Python dict literals. -/
def create_fallback_profile (description : List Char) : Dict :=
  let dl := pyLower description
  let budget : ℚ :=
    if containsSub dl ("budget".toList) then
      match budgetSearch dl with
      | some n => (n : ℚ)
      | none => 5000
    else 5000
  let frontend := firstKeyword dl
    [(("react".toList), ("react".toList)), (("angular".toList), ("angular".toList)),
     (("vue".toList), ("vue".toList))]
  let backend :=
    if containsSub dl ("node".toList) || containsSub dl ("nodejs".toList) then
      Json.str ("nodejs".toList)
    else if containsSub dl ("python".toList) || containsSub dl ("django".toList) then
      Json.str ("python".toList)
    else if containsSub dl ("java".toList) then Json.str ("java".toList)
    else Json.null
  let database :=
    if containsSub dl ("mongodb".toList) || containsSub dl ("mongo".toList) then
      Json.str ("mongodb".toList)
    else if containsSub dl ("postgres".toList) || containsSub dl ("postgresql".toList) then
      Json.str ("postgresql".toList)
    else if containsSub dl ("mysql".toList) then Json.str ("mysql".toList)
    else Json.null
  let proxy := firstKeyword dl
    [(("nginx".toList), ("nginx".toList)), (("apache".toList), ("apache".toList))]
  let hosting :=
    if containsSub dl ("aws".toList) then Json.str ("aws".toList)
    else if containsSub dl ("azure".toList) then Json.str ("azure".toList)
    else if containsSub dl ("gcp".toList) || containsSub dl ("google cloud".toList) then
      Json.str ("gcp".toList)
    else Json.null
  let requirements : List Json :=
    (if containsSub dl ("scalab".toList) then [Json.str ("scalability".toList)] else []) ++
    (if containsSub dl ("availab".toList) then [Json.str ("high availability".toList)] else []) ++
    (if containsSub dl ("security".toList) then [Json.str ("security".toList)] else [])
  [(nameKey, Json.str ("Cloud Application".toList)),
   (budgetKey, Json.num budget),
   (descKey, Json.str (description.take 200)),
   (techKey, Json.obj
     [(("frontend".toList), frontend), (("backend".toList), backend),
      (("database".toList), database), (("proxy".toList), proxy),
      (("hosting".toList), hosting)]),
   (nfrKey, Json.arr requirements)]

/- ===================================================================
   profile_extractor.extract_project_profile
   =================================================================== -/

/-- The body of the `try` block of `extract_project_profile`
(`profile_extractor.py` lines 91-133): the model response (`resp`, the
outcome of the `call_llm` invocation) is fed through
`extract_json_from_text`, `json.loads` (`parse`, supplied as a parameter
since it is library code) and the validate-and-fix block. -/
def runModelPath (parse : List Char → Except (List Char) Json)
    (desc : List Char) :
    Except (List Char) (List Char) → Except (List Char) Dict
  | .error e => .error e
  | .ok r =>
    match parse (extract_json_from_text r) with
    | .error e => .error e
    | .ok j => fixProfile desc j

/-- `profile_extractor.extract_project_profile` (lines 54-143): the two
`except` clauses catch `json.JSONDecodeError` and every other `Exception`
and both return `create_fallback_profile(description)`, so any failure of
the model path yields the fallback. -/
def extract_project_profile (resp : Except (List Char) (List Char))
    (parse : List Char → Except (List Char) Json)
    (desc : List Char) : Dict :=
  match runModelPath parse desc resp with
  | .ok p => p
  | .error _ => create_fallback_profile desc

/- ===================================================================
   billing_generator.generate_mock_billing (post-parse processing)
   =================================================================== -/

/-- Key "cost_inr". -/
def costKey : List Char := "cost_inr".toList

/-- Key "usage_quantity". -/
def qtyKey : List Char := "usage_quantity".toList

/-- The nine required billing-record fields, in the order of
`billing_generator.py` lines 149-150. -/
def requiredBillingFields : List (List Char) :=
  [("month".toList), ("service".toList), ("resource_id".toList),
   ("region".toList), ("usage_type".toList), qtyKey, ("unit".toList),
   costKey, ("desc".toList)]

/-- Python `field in record` for an arbitrary parsed value: key lookup on a
dict, substring test on a string, membership test on a list (string
elements only can match), `TypeError` (`none`) on numbers, booleans and
`None`. -/
def jsonHasField (r : Json) (f : List Char) : Option Bool :=
  match r with
  | .obj fs => some (dictHas fs f)
  | .str s => some (containsSub s f)
  | .arr xs => some (xs.any fun x =>
      match x with
      | .str s => decide (s = f)
      | _ => false)
  | _ => none

/-- Result of the `for field in required_fields` presence loop
(`billing_generator.py` lines 156-158): the first missing field raises
`ValueError` (record skipped); a `TypeError` from `in` on an unsuitable
value propagates (batch aborted). -/
inductive FieldCheck where
  | allPresent : FieldCheck
  | missingField : FieldCheck
  | typeError : FieldCheck

/-- Run the presence loop over a field list. -/
def checkFields (r : Json) : List (List Char) → FieldCheck
  | [] => .allPresent
  | f :: rest =>
    match jsonHasField r f with
    | none => .typeError
    | some false => .missingField
    | some true => checkFields r rest

/-- The numeric-field repair of `billing_generator.py` lines 161-175:
`isinstance(v, (int, float))` keeps the value (booleans pass, being `int`
subclass values 1/0); otherwise `float(str(v).replace(',', ''))` replaces
it, and a parse failure means the record is rejected.  Returns the numeric
value Python would compare with, and the value stored back in the record. -/
def coerceBillingNum : Json → Option (ℚ × Json)
  | .num q => some (q, .num q)
  | .bool b => some ((if b then 1 else 0), .bool b)
  | .str s => (pyFloat? (removeCommas s)).map (fun q => (q, Json.num q))
  | _ => none

/-- Fate of a single parsed billing record in the validation loop. -/
inductive RecResult where
  | ok : Dict → RecResult
  | skip : RecResult
  | abort : RecResult

instance : Inhabited RecResult := ⟨RecResult.skip⟩

/-- Numeric part of the per-record validation, on a record that is a dict
and passed the presence loop (`billing_generator.py` lines 160-177):
numeric repair of `cost_inr`, rejection of a negative cost, numeric
repair of `usage_quantity` — and no sign check at all on
`usage_quantity`.  The two `.abort`s on a missing key are unreachable
(the presence loop has just established both keys exist) and only
totalise the `Option` matches. -/
def validateFields (fs : Dict) : RecResult :=
  match dictGet fs costKey with
  | none => .abort
  | some cv =>
    match coerceBillingNum cv with
    | none => .skip
    | some (q, cv') =>
      if q < 0 then .skip
      else
        match dictGet (dictSet fs costKey cv') qtyKey with
        | none => .abort
        | some uv =>
          match coerceBillingNum uv with
          | none => .skip
          | some (_, uv') => .ok (dictSet (dictSet fs costKey cv') qtyKey uv')

/-- Per-record validation (`billing_generator.py` lines 153-181): the
presence loop over the nine fields (a missing field skips the record, a
`TypeError` aborts the batch), then the numeric repair.  A record that
passed the presence loop but is not a dict hits a `TypeError` on
`record['cost_inr']`, aborting the batch. -/
def validateRecord (r : Json) : RecResult :=
  match checkFields r requiredBillingFields with
  | .typeError => .abort
  | .missingField => .skip
  | .allPresent =>
    match r with
    | .obj fs => validateFields fs
    | _ => .abort

/-- The validation loop over the whole batch: an abort propagates (the
exception ends the `for` loop), a skip is dropped, an ok is collected. -/
def validateAll : List Json → Option (List Dict)
  | [] => some []
  | r :: rest =>
    match validateRecord r with
    | .abort => none
    | .skip => validateAll rest
    | .ok d => (validateAll rest).map (d :: ·)

/-- Number of records of a batch that survive per-record validation. -/
def countValid (records : List Json) : Nat :=
  (records.filter (fun r =>
    match validateRecord r with
    | .ok _ => true
    | _ => false)).length

/-- `billing_generator.generate_mock_billing` from the point where the
model response has been through `extract_json_from_text` and `json.loads`
(`billing_generator.py` lines 132-221; the prompt build, backend call and
`json.loads` itself are external and enter as the `parsed` parameter).
A parse failure, a non-list value, a batch of fewer than 12 parsed
records, an aborting record, or fewer than 12 surviving records each
raise `ValueError`; batches longer than 20 are trimmed to 20 before
validation. -/
def generate_mock_billing (parsed : Except (List Char) Json) :
    Except (List Char) (List Dict) :=
  match parsed with
  | .error e => .error (("Failed to parse billing data as JSON: ".toList) ++ e)
  | .ok (.arr records0) =>
    if records0.length < 12 then
      .error ("Generated fewer than 12 records".toList)
    else
      let records := records0.take 20
      match validateAll records with
      | none => .error ("Error processing billing data".toList)
      | some valids =>
        if valids.length < 12 then
          .error ("Only fewer than 12 valid records after validation".toList)
        else .ok valids
  | .ok _ => .error ("Response is not a JSON array".toList)

/- ===================================================================
   cost_analyser.analyze_costs_and_recommend (post-parse processing)
   =================================================================== -/

/-- Key "recommendations". -/
def recsKey : List Char := "recommendations".toList

/-- Key "potential_savings". -/
def savingsKey : List Char := "potential_savings".toList

/-- Key "current_cost". -/
def currentCostKey : List Char := "current_cost".toList

/-- Key "steps". -/
def stepsKey : List Char := "steps".toList

/-- Key "cloud_providers". -/
def providersKey : List Char := "cloud_providers".toList

/-- The ten required recommendation fields, in the order of
`cost_analyser.py` lines 197-199. -/
def requiredRecFields : List (List Char) :=
  [("title".toList), ("service".toList), currentCostKey, savingsKey,
   ("recommendation_type".toList), descKey, ("implementation_effort".toList),
   ("risk_level".toList), stepsKey, providersKey]

/-- Python `round(x, 2)` as used on the summary numbers, in exact rational
arithmetic (both the stored values and any recomputation the claims
compare them with go through this same function, so the binary-float and
tie-breaking details of `round` cannot affect the comparisons). -/
def round2 (q : ℚ) : ℚ :=
  (⌊q * 100 + 1 / 2⌋ : ℚ) / 100

/-- `r.get('potential_savings', 0)` as a summand of `sum(...)`
(`cost_analyser.py` line 182): missing key contributes 0, a number or
boolean contributes its numeric value, any other value (or a non-dict
`r`, which has no `.get`) raises — `none` here, aborting the analysis. -/
def getSavings : Json → Option ℚ
  | .obj fs =>
    match dictGet fs savingsKey with
    | none => some 0
    | some v => jsonNumVal? v
  | _ => none

/-- `sum(r.get('potential_savings', 0) for r in recs)`. -/
def sumSavings : List Json → Option ℚ
  | [] => some 0
  | r :: rest =>
    match getSavings r, sumSavings rest with
    | some a, some b => some (a + b)
    | _, _ => none

/-- The summary numbers the code computes at `cost_analyser.py`
lines 181-194 from a recommendation list and the billing total. -/
structure Summary where
  total_potential_savings : ℚ
  savings_percentage : ℚ
  recommendations_count : Nat
  high_impact_recommendations : Nat
deriving DecidableEq

/-- The aggregation of `cost_analyser.py` lines 181-194: total savings by
summation, percentage against the billing total (0 when the total is 0),
count of the list, and the number of entries whose savings exceed 10% of
the billing total.  `none` models the `TypeError` a non-numeric
`potential_savings` (or non-dict entry) raises inside `sum`. -/
def computeSummary (recs : List Json) (total_cost : ℚ) : Option Summary :=
  match sumSavings recs with
  | none => none
  | some total_savings =>
    let pct : ℚ := if 0 < total_cost then total_savings / total_cost * 100 else 0
    let high := recs.countP (fun r =>
      match getSavings r with
      | some q => decide (total_cost * (1 / 10) < q)
      | none => false)
    some ⟨round2 total_savings, round2 pct, recs.length, high⟩

/-- `float(v)` as applied to `current_cost` / `potential_savings` at
`cost_analyser.py` lines 211-215 (note: unlike the billing repair, no
`str(...)` and no comma stripping): numbers and booleans pass the
preceding `isinstance` test unchanged, strings go through `float`,
everything else raises and the recommendation is skipped. -/
def coerceRecNum : Json → Option Json
  | .num q => some (.num q)
  | .bool b => some (.bool b)
  | .str s => (pyFloat? s).map Json.num
  | _ => none

/-- Per-recommendation validation (`cost_analyser.py` lines 202-228):
all ten fields present (else skipped), numeric repair of `current_cost`
and `potential_savings` (failure skips — the inner `except Exception`
catches everything), scalar `steps` / `cloud_providers` wrapped into
one-element lists.  Non-dict entries always end in a caught exception, so
they are skipped. -/
def validateRec (r : Json) : Option Dict :=
  match r with
  | .obj fs =>
    if requiredRecFields.all (dictHas fs) then
      match dictGet fs currentCostKey with
      | none => none
      | some cc =>
        match coerceRecNum cc with
        | none => none
        | some cc' =>
          let fs1 := dictSet fs currentCostKey cc'
          match dictGet fs1 savingsKey with
          | none => none
          | some sv =>
            match coerceRecNum sv with
            | none => none
            | some sv' =>
              let fs2 := dictSet fs1 savingsKey sv'
              let fs3 :=
                match dictGet fs2 stepsKey with
                | some (.arr _) => fs2
                | some v => dictSet fs2 stepsKey (Json.arr [v])
                | none => fs2
              let fs4 :=
                match dictGet fs3 providersKey with
                | some (.arr _) => fs3
                | some v => dictSet fs3 providersKey (Json.arr [v])
                | none => fs3
              some fs4
    else none
  | _ => none

/-- The validation loop over the parsed recommendation list. -/
def validateRecs (recs : List Json) : List Dict :=
  recs.filterMap validateRec

/-- The report fields the validated pipeline is responsible for.  (The
code also carries `project_name` and the recomputed `analysis` block and
whatever other top-level keys the model emitted; no claim under analysis
refers to them, so they are not tracked here.) -/
structure Report where
  recommendations : List Dict
  summary : Summary

/-- `cost_analyser.analyze_costs_and_recommend` from the point where the
model response has been through `extract_json_from_text` and `json.loads`
(`cost_analyser.py` lines 165-253), as a function of the billing total
`total_cost = sum(record['cost_inr'] for record in billing_data)` and the
parse outcome.  A parse failure, a missing or non-list `recommendations`
entry, or a `TypeError` inside the summary aggregation each raise
`ValueError`.  On success the summary is computed from the parsed list
(lines 181-194) BEFORE the per-recommendation validation (lines 201-228);
afterwards only `recommendations_count` is refreshed from the validated
list (line 231).  A non-dict top-level value always raises (membership or
indexing `TypeError`), like a missing key. -/
def analyze_costs_and_recommend (total_cost : ℚ)
    (parsed : Except (List Char) Json) : Except (List Char) Report :=
  match parsed with
  | .error e => .error (("Failed to parse recommendations as JSON: ".toList) ++ e)
  | .ok (.obj fs) =>
    match dictGet fs recsKey with
    | some (.arr recs) =>
      match computeSummary recs total_cost with
      | none => .error ("Error processing recommendations".toList)
      | some summ =>
        let valids := validateRecs recs
        .ok ⟨valids, { summ with recommendations_count := valids.length }⟩
    | some _ => .error ("recommendations must be an array".toList)
    | none => .error ("Missing recommendations field".toList)
  | .ok _ => .error ("Error processing recommendations".toList)

/- ===================================================================
   Helper lemmas on the string primitives
   =================================================================== -/

lemma dropWhile_cons_of_neg (p : Char → Bool) (c : Char) (l : List Char)
    (h : p c = false) : (c :: l).dropWhile p = c :: l := by
  simp [List.dropWhile_cons, h]

lemma pyStrip_of_ends (a b : Char) (mid : List Char)
    (ha : pyIsSpace a = false) (hb : pyIsSpace b = false) :
    pyStrip (a :: (mid ++ [b])) = a :: (mid ++ [b]) := by
  unfold pyStrip
  rw [dropWhile_cons_of_neg _ _ _ ha]
  have hrev : (a :: (mid ++ [b])).reverse = b :: (mid.reverse ++ [a]) := by simp
  rw [hrev, dropWhile_cons_of_neg _ _ _ hb]
  simp

lemma startsEnds_shape {t : List Char} {a b : Char}
    (h : startsEnds t a b = true) : ∃ mid, t = a :: (mid ++ [b]) := by
  match t with
  | [] => simp [startsEnds] at h
  | c :: rest =>
    simp only [startsEnds] at h
    cases hr : rest.getLast? with
    | none => rw [hr] at h; simp at h
    | some d =>
      rw [hr] at h
      simp only [Bool.and_eq_true, beq_iff_eq] at h
      obtain ⟨hc, hd⟩ := h
      have hne : rest ≠ [] := by
        intro he
        rw [he] at hr
        simp at hr
      have hlast : rest.getLast hne = d := by
        have := List.getLast?_eq_getLast rest hne
        rw [this] at hr
        exact Option.some_injective _ hr
      refine ⟨rest.dropLast, ?_⟩
      have := List.dropLast_append_getLast hne
      rw [hlast, hd] at this
      rw [hc, this]

lemma pyFindChar_cons_self (c : Char) (l : List Char) :
    pyFindChar (c :: l) c = some 0 := by
  simp [pyFindChar, List.findIdx?_cons]

lemma findIdx?_ge (p : Char → Bool) :
    ∀ (l : List Char) (i o : Nat), l.findIdx? p i = some o → i ≤ o := by
  intro l
  induction l with
  | nil => intro i o h; simp [List.findIdx?] at h
  | cons x xs ih =>
    intro i o h
    rw [List.findIdx?_cons] at h
    split at h
    · injection h with h
      omega
    · have := ih (i + 1) o h
      omega

lemma pyRFindChar_ends (a b : Char) (mid : List Char) :
    pyRFindChar (a :: (mid ++ [b])) b = some (mid.length + 1) := by
  unfold pyRFindChar
  have hrev : (a :: (mid ++ [b])).reverse = b :: (mid.reverse ++ [a]) := by simp
  rw [hrev, List.findIdx?_cons]
  simp

lemma containsSub_mono {pat1 pat2 : List Char} (hp : pat1 <+: pat2) :
    ∀ (s : List Char) (i j : Nat),
      (findSubAux s pat2 i).isSome → (findSubAux s pat1 j).isSome := by
  intro s
  induction s with
  | nil =>
    intro i j h
    unfold findSubAux at h ⊢
    split at h
    · rename_i h2
      have h1 : pat1 = [] := List.prefix_nil.mp (h2 ▸ hp)
      simp [h1]
    · simp at h
  | cons x xs ih =>
    intro i j h
    unfold findSubAux at h ⊢
    by_cases h1 : pat1.isPrefixOf (x :: xs)
    · simp [h1]
    · have h2 : ¬ pat2.isPrefixOf (x :: xs) := by
        intro h2
        exact h1 (List.isPrefixOf_iff_prefix.mpr
          (hp.trans (List.isPrefixOf_iff_prefix.mp h2)))
      rw [if_neg h2] at h
      rw [if_neg h1]
      exact ih (i + 1) (j + 1) h

lemma fenceMark_prefix_fenceJson : fenceMark <+: fenceJson :=
  ⟨("json".toList), rfl⟩

lemma stripFences_eq_self {text : List Char}
    (h : containsSub text fenceMark = false) : stripFences text = text := by
  have h2 : containsSub text fenceJson = false := by
    cases h3 : containsSub text fenceJson with
    | false => rfl
    | true =>
      exact absurd
        (containsSub_mono fenceMark_prefix_fenceJson text 0 0 h3)
        (by simp [containsSub] at h ⊢; exact h)
  unfold stripFences
  rw [h2, h]
  simp

lemma stripFences_fenced {text : List Char} {i j : Nat}
    (hi : pyFindSub text fenceJson = some i)
    (hj : pyFindSubFrom text fenceMark (i + 7) = some j) :
    stripFences text = pyStrip (pySlice text (i + 7) j) := by
  have hc : containsSub text fenceJson = true := by
    simp [containsSub, hi]
  unfold stripFences
  rw [hc]
  simp only [hi, Option.getD_some, if_true, hj]

lemma pySlice_zero_length (t : List Char) : pySlice t 0 t.length = t := by
  unfold pySlice
  simp

lemma arraySpanRes_obj (mid : List Char) :
    arraySpanRes ('\x7b' :: (mid ++ ['\x7d'])) = none := by
  have hobj0 : pyFindChar ('\x7b' :: (mid ++ ['\x7d'])) '\x7b' = some 0 :=
    pyFindChar_cons_self _ _
  unfold arraySpanRes
  rw [hobj0]
  cases hfa : pyFindChar ('\x7b' :: (mid ++ ['\x7d'])) '[' with
  | none => rfl
  | some a => simp

lemma objSpanRes_obj (mid : List Char) :
    objSpanRes ('\x7b' :: (mid ++ ['\x7d'])) = '\x7b' :: (mid ++ ['\x7d']) := by
  have hobj0 : pyFindChar ('\x7b' :: (mid ++ ['\x7d'])) '\x7b' = some 0 :=
    pyFindChar_cons_self _ _
  have hend : pyRFindChar ('\x7b' :: (mid ++ ['\x7d'])) '\x7d' = some (mid.length + 1) :=
    pyRFindChar_ends _ _ _
  have hlt : 0 < mid.length + 1 := Nat.succ_pos _
  simp only [objSpanRes, hobj0, hend, if_pos hlt]
  have hlen : (('\x7b' :: (mid ++ ['\x7d'])) : List Char).length = mid.length + 1 + 1 := by
    simp
  rw [← hlen, pySlice_zero_length]
  exact pyStrip_of_ends _ _ _ (by decide) (by decide)

lemma pickSpan_obj (mid : List Char) :
    pickSpan ('\x7b' :: (mid ++ ['\x7d'])) = '\x7b' :: (mid ++ ['\x7d']) := by
  unfold pickSpan
  rw [arraySpanRes_obj]
  exact objSpanRes_obj mid

lemma pickSpan_arr (mid : List Char) :
    pickSpan ('[' :: (mid ++ [']'])) = '[' :: (mid ++ [']']) := by
  have harr0 : pyFindChar ('[' :: (mid ++ [']'])) '[' = some 0 :=
    pyFindChar_cons_self _ _
  have hend : pyRFindChar ('[' :: (mid ++ [']'])) ']' = some (mid.length + 1) :=
    pyRFindChar_ends _ _ _
  have hcond : (match pyFindChar ('[' :: (mid ++ [']'])) '\x7b' with
       | none => true
       | some o => decide ((0 : Nat) < o)) = true := by
    cases ho : pyFindChar ('[' :: (mid ++ [']'])) '\x7b' with
    | none => rfl
    | some o =>
      simp only [decide_eq_true_eq]
      unfold pyFindChar at ho
      rw [List.findIdx?_cons] at ho
      split at ho
      · rename_i hhead
        simp at hhead
      · have := findIdx?_ge _ _ _ _ ho
        omega
  have harr : arraySpanRes ('[' :: (mid ++ [']'])) =
      some (pyStrip (pySlice ('[' :: (mid ++ [']'])) 0 (mid.length + 1 + 1))) := by
    simp only [arraySpanRes, harr0, hcond, hend, if_true, if_pos (Nat.succ_pos mid.length)]
  unfold pickSpan
  rw [harr]
  have hlen : (('[' :: (mid ++ [']'])) : List Char).length = mid.length + 1 + 1 := by
    simp
  rw [← hlen, pySlice_zero_length]
  exact pyStrip_of_ends _ _ _ (by decide) (by decide)

/- ===================================================================
   Claim C3 — array span preferred over object span
   =================================================================== -/

/-- Claim C3, corrected.  For every fence-free text in which a `[` occurs
strictly before the first `{` (or no `{` occurs at all) and the last `]`
occurs strictly after that `[`, `extract_json_from_text` returns the array
span (first `[` to last `]`, stripped).  The claim as stated omits the
last two conditions; `array_span_preference_counterexample` shows it fails
without the requirement on `]`. -/
theorem array_span_preference (text : List Char) (a b : Nat)
    (hnf : containsSub text fenceMark = false)
    (ha : pyFindChar text '[' = some a)
    (hobj : ∀ o, pyFindChar text '\x7b' = some o → a < o)
    (hb : pyRFindChar text ']' = some b) (hab : a < b) :
    extract_json_from_text text = pyStrip (pySlice text a (b + 1)) := by
  have hne : text ≠ [] := by
    intro he
    rw [he] at ha
    simp [pyFindChar, List.findIdx?] at ha
  unfold extract_json_from_text
  rw [if_neg hne, stripFences_eq_self hnf]
  have hcond : (match pyFindChar text '\x7b' with
      | none => true
      | some o => decide (a < o)) = true := by
    cases ho : pyFindChar text '\x7b' with
    | none => rfl
    | some o => simpa using hobj o ho
  have harr : arraySpanRes text = some (pyStrip (pySlice text a (b + 1))) := by
    simp only [arraySpanRes, ha, hcond, if_true, hb, if_pos hab]
  unfold pickSpan
  rw [harr]

/-- Counterexample to claim C3 as stated: in the input `[{}` the `[` (at
index 0) occurs strictly before the first `{` (at index 1), yet
`extract_json_from_text` returns the object span `text[1:3] = {}` — there
being no `]`, the array branch falls through to the object branch. -/
theorem array_span_preference_counterexample :
    pyFindChar (("[\x7b\x7d").toList) '[' = some 0 ∧
    pyFindChar (("[\x7b\x7d").toList) '\x7b' = some 1 ∧
    extract_json_from_text (("[\x7b\x7d").toList) =
      pySlice (("[\x7b\x7d").toList) 1 3 := by
  refine ⟨by decide, by decide, by decide⟩

/-- Concrete fence-free input for the C3 witness. -/
def c3WitText : List Char := ("see [1, 2] ok").toList

/-- Witness for `array_span_preference` at the input `see [1, 2] ok`. -/
theorem array_span_preference_witness :
    extract_json_from_text c3WitText = ("[1, 2]").toList := by
  have h := array_span_preference c3WitText 4 9 (by decide) (by decide)
    (by
      intro o ho
      have hn : pyFindChar c3WitText '\x7b' = none := by decide
      rw [hn] at ho
      cases ho)
    (by decide) (by decide)
  exact h.trans (by decide)

/- ===================================================================
   Claim C7 — fenced ```json block extraction
   =================================================================== -/

/-- Claim C7, confirmed.  For every text whose first "```json" fence
(opened at `i`, closed by the next "```" at `j`) has an interior that,
once trimmed, is delimited like a top-level JSON object or array (starts
with `{` and ends with `}`, or starts with `[` and ends with `]` — a
consequence of well-formedness, so the hypothesis is weaker than the
claim's and the theorem stronger), `extract_json_from_text` returns
exactly that fenced interior, trimmed. -/
theorem fenced_block_extraction (text : List Char) (i j : Nat)
    (hi : pyFindSub text fenceJson = some i)
    (hj : pyFindSubFrom text fenceMark (i + 7) = some j)
    (hshape : startsEnds (pyStrip (pySlice text (i + 7) j)) '\x7b' '\x7d' = true
            ∨ startsEnds (pyStrip (pySlice text (i + 7) j)) '[' ']' = true) :
    extract_json_from_text text = pyStrip (pySlice text (i + 7) j) := by
  have hne : text ≠ [] := by
    intro he
    rw [he] at hi
    simp [pyFindSub, findSubAux, fenceJson] at hi
  unfold extract_json_from_text
  rw [if_neg hne, stripFences_fenced hi hj]
  rcases hshape with h | h
  · obtain ⟨mid, hm⟩ := startsEnds_shape h
    rw [hm, pickSpan_obj]
  · obtain ⟨mid, hm⟩ := startsEnds_shape h
    rw [hm, pickSpan_arr]

/-- The spec's concrete fenced example text. -/
def sampleFencedText : List Char :=
  ("Sure! ```json\n\x7b\"name\":\"X\"\x7d\n``` Done").toList

/-- Witness for `fenced_block_extraction` on the spec's example: the
result is exactly the fenced object. -/
theorem fenced_block_extraction_witness :
    extract_json_from_text sampleFencedText = ("\x7b\"name\":\"X\"\x7d").toList := by
  have h := fenced_block_extraction sampleFencedText 6 27 (by decide) (by decide)
    (Or.inl (by decide))
  exact h.trans (by decide)

/- ===================================================================
   Helper lemmas on dicts and substring containment
   =================================================================== -/

lemma dictGet_cons_self {d : Dict} {k : List Char} {v : Json} :
    dictGet ((k, v) :: d) k = some v := by
  simp [dictGet]

lemma dictGet_cons_ne {d : Dict} {k k' : List Char} {v : Json} (h : ¬ k = k') :
    dictGet ((k, v) :: d) k' = dictGet d k' := by
  simp [dictGet, h]

lemma dictGet_set_self (d : Dict) (k : List Char) (v : Json) :
    dictGet (dictSet d k v) k = some v := by
  induction d with
  | nil => simp [dictSet, dictGet]
  | cons kv rest ih =>
    obtain ⟨k', v'⟩ := kv
    by_cases h : k' = k
    · simp [dictSet, h, dictGet]
    · simp [dictSet, h, dictGet, ih]

lemma dictGet_set_ne (d : Dict) (k k' : List Char) (v : Json) (h : ¬ k = k') :
    dictGet (dictSet d k v) k' = dictGet d k' := by
  induction d with
  | nil => simp [dictSet, dictGet, h]
  | cons kv rest ih =>
    obtain ⟨k'', v''⟩ := kv
    unfold dictSet
    by_cases h2 : k'' = k
    · rw [if_pos h2, dictGet_cons_ne h, dictGet_cons_ne (by rw [h2]; exact h)]
    · rw [if_neg h2]
      by_cases h3 : k'' = k'
      · subst h3
        rw [dictGet_cons_self, dictGet_cons_self]
      · rw [dictGet_cons_ne h3, dictGet_cons_ne h3, ih]

lemma dictHas_set (d : Dict) (k k' : List Char) (v : Json)
    (h : dictHas d k' = true) : dictHas (dictSet d k v) k' = true := by
  by_cases h2 : k = k'
  · subst h2
    simp [dictHas, dictGet_set_self]
  · rwa [dictHas, dictGet_set_ne d k k' v h2]

lemma findSubAux_isSome_infix_iff :
    ∀ (s pat : List Char) (i : Nat),
      (findSubAux s pat i).isSome = true ↔ pat <:+: s := by
  intro s
  induction s with
  | nil =>
    intro pat i
    unfold findSubAux
    constructor
    · intro h
      split at h
      · rename_i h2
        rw [h2]
      · simp at h
    · intro h
      have h2 : pat = [] := List.eq_nil_of_infix_nil h
      simp [h2]
  | cons x xs ih =>
    intro pat i
    unfold findSubAux
    by_cases hp : pat.isPrefixOf (x :: xs)
    · rw [if_pos hp]
      simp only [Option.isSome_some, true_iff]
      exact (List.isPrefixOf_iff_prefix.mp hp).isInfix
    · rw [if_neg hp, ih pat (i + 1)]
      constructor
      · intro h
        exact h.trans (List.suffix_cons x xs).isInfix
      · intro h
        rcases List.infix_cons_iff.mp h with h1 | h2
        · exact absurd (List.isPrefixOf_iff_prefix.mpr h1) hp
        · exact h2

lemma containsSub_infix_iff (s pat : List Char) :
    containsSub s pat = true ↔ pat <:+: s := by
  rw [containsSub, pyFindSub]
  exact findSubAux_isSome_infix_iff s pat 0

lemma containsSub_pyLower {s pat : List Char} (hpat : pyLower pat = pat)
    (h : containsSub s pat = true) : containsSub (pyLower s) pat = true := by
  rw [containsSub_infix_iff] at h ⊢
  have h2 := List.IsInfix.map Char.toLower h
  rwa [show List.map Char.toLower pat = pat from hpat] at h2

/- ===================================================================
   Claim C8 — fallback budget extraction
   =================================================================== -/

/-- Claim C8, corrected.  The fallback budget equals the amount found by
the regex search over the lowercased description ONLY when the substring
"budget" occurs in the lowercased description (the code gates the regex
on `if 'budget' in desc_lower`); in every other case — including when the
regex would have matched — the budget is 5000.  The claim as stated omits
the gate; `fallback_budget_counterexample` shows it fails without it. -/
theorem fallback_budget_policy (desc : List Char) :
    dictGet (create_fallback_profile desc) budgetKey =
      some (Json.num (if containsSub (pyLower desc) (("budget").toList) then
        (match budgetSearch (pyLower desc) with
         | some n => (n : ℚ)
         | none => 5000)
        else 5000)) := by
  unfold create_fallback_profile
  rw [dictGet_cons_ne (by decide), dictGet_cons_self]

/-- Counterexample to claim C8 as stated: for the description
`pay 8000 rupees monthly` the regex search finds the amount 8000, yet the
fallback budget is the default 5000 because the word "budget" does not
occur. -/
theorem fallback_budget_counterexample :
    budgetSearch (pyLower (("pay 8000 rupees monthly").toList)) = some 8000 ∧
    dictGet (create_fallback_profile (("pay 8000 rupees monthly").toList)) budgetKey =
      some (Json.num 5000) ∧
    (5000 : ℚ) ≠ 8000 := by
  refine ⟨by decide, rfl, by norm_num⟩

/- ===================================================================
   Claim C10 — fallback tech detection
   =================================================================== -/

/-- Tech-stack slot lookup inside a profile dict (observation helper for
stating the tech-detection properties). -/
def techLookup (p : Dict) (slot : List Char) : Option Json :=
  match dictGet p techKey with
  | some (.obj ts) => dictGet ts slot
  | _ => none

lemma firstKeyword_head {dl kw v : List Char} {rest : List (List Char × List Char)}
    (h : containsSub dl kw = true) :
    firstKeyword dl ((kw, v) :: rest) = Json.str v := by
  simp only [firstKeyword]
  rw [if_pos h]

/-- Claim C10, confirmed.  For every description containing the substrings
"react", "nodejs", "mongodb" and "aws", the fallback profile has
tech_stack.frontend = "react", backend = "nodejs", database = "mongodb"
and hosting = "aws" (each keyword chain tests its match first, and
detection runs on the lowercased description, so containment of the
lowercase keywords suffices). -/
theorem fallback_tech_detection (desc : List Char)
    (hr : containsSub desc (("react").toList) = true)
    (hn : containsSub desc (("nodejs").toList) = true)
    (hm : containsSub desc (("mongodb").toList) = true)
    (hw : containsSub desc (("aws").toList) = true) :
    techLookup (create_fallback_profile desc) (("frontend").toList) =
      some (Json.str (("react").toList)) ∧
    techLookup (create_fallback_profile desc) (("backend").toList) =
      some (Json.str (("nodejs").toList)) ∧
    techLookup (create_fallback_profile desc) (("database").toList) =
      some (Json.str (("mongodb").toList)) ∧
    techLookup (create_fallback_profile desc) (("hosting").toList) =
      some (Json.str (("aws").toList)) := by
  have hr' := containsSub_pyLower (by decide) hr
  have hn' := containsSub_pyLower (by decide) hn
  have hm' := containsSub_pyLower (by decide) hm
  have hw' := containsSub_pyLower (by decide) hw
  have htech : ∀ slot : List Char,
      techLookup (create_fallback_profile desc) slot =
      dictGet
        [(("frontend".toList), firstKeyword (pyLower desc)
            [(("react".toList), ("react".toList)), (("angular".toList), ("angular".toList)),
             (("vue".toList), ("vue".toList))]),
         (("backend".toList),
            if containsSub (pyLower desc) ("node".toList) ||
               containsSub (pyLower desc) ("nodejs".toList) then
              Json.str ("nodejs".toList)
            else if containsSub (pyLower desc) ("python".toList) ||
               containsSub (pyLower desc) ("django".toList) then
              Json.str ("python".toList)
            else if containsSub (pyLower desc) ("java".toList) then
              Json.str ("java".toList)
            else Json.null),
         (("database".toList),
            if containsSub (pyLower desc) ("mongodb".toList) ||
               containsSub (pyLower desc) ("mongo".toList) then
              Json.str ("mongodb".toList)
            else if containsSub (pyLower desc) ("postgres".toList) ||
               containsSub (pyLower desc) ("postgresql".toList) then
              Json.str ("postgresql".toList)
            else if containsSub (pyLower desc) ("mysql".toList) then
              Json.str ("mysql".toList)
            else Json.null),
         (("proxy".toList), firstKeyword (pyLower desc)
            [(("nginx".toList), ("nginx".toList)), (("apache".toList), ("apache".toList))]),
         (("hosting".toList),
            if containsSub (pyLower desc) ("aws".toList) then Json.str ("aws".toList)
            else if containsSub (pyLower desc) ("azure".toList) then
              Json.str ("azure".toList)
            else if containsSub (pyLower desc) ("gcp".toList) ||
               containsSub (pyLower desc) ("google cloud".toList) then
              Json.str ("gcp".toList)
            else Json.null)] slot := by
    intro slot
    unfold techLookup create_fallback_profile
    rw [dictGet_cons_ne (by decide), dictGet_cons_ne (by decide),
      dictGet_cons_ne (by decide), dictGet_cons_self]
  refine ⟨?_, ?_, ?_, ?_⟩
  · rw [htech, dictGet_cons_self, firstKeyword_head hr']
  · rw [htech, dictGet_cons_ne (by decide), dictGet_cons_self]
    have hb : (containsSub (pyLower desc) ("node".toList) ||
        containsSub (pyLower desc) ("nodejs".toList)) = true := by
      rw [hn']
      simp
    rw [if_pos hb]
  · rw [htech, dictGet_cons_ne (by decide), dictGet_cons_ne (by decide),
      dictGet_cons_self]
    have hd : (containsSub (pyLower desc) ("mongodb".toList) ||
        containsSub (pyLower desc) ("mongo".toList)) = true := by
      rw [hm']
      simp
    rw [if_pos hd]
  · rw [htech, dictGet_cons_ne (by decide), dictGet_cons_ne (by decide),
      dictGet_cons_ne (by decide), dictGet_cons_ne (by decide), dictGet_cons_self]
    rw [if_pos hw']

/-- Witness for `fallback_tech_detection` on a concrete description. -/
theorem fallback_tech_detection_witness :
    techLookup (create_fallback_profile (("we use react, nodejs, mongodb on aws").toList))
      (("frontend").toList) = some (Json.str (("react").toList)) ∧
    techLookup (create_fallback_profile (("we use react, nodejs, mongodb on aws").toList))
      (("backend").toList) = some (Json.str (("nodejs").toList)) ∧
    techLookup (create_fallback_profile (("we use react, nodejs, mongodb on aws").toList))
      (("database").toList) = some (Json.str (("mongodb").toList)) ∧
    techLookup (create_fallback_profile (("we use react, nodejs, mongodb on aws").toList))
      (("hosting").toList) = some (Json.str (("aws").toList)) :=
  fallback_tech_detection (("we use react, nodejs, mongodb on aws").toList)
    (by decide) (by decide) (by decide) (by decide)

/- ===================================================================
   Claim C6 — extraction never fails, falls back
   =================================================================== -/

/-- Claim C6, confirmed.  `extract_project_profile` is a total function
of the call outcome, the parse outcome and the description (the embedding
of the fact that its `except` clauses catch every exception), and
whenever the model call fails, or the JSON parse of the extracted text
fails, or the validate-and-fix step fails, the result is exactly the
deterministic fallback profile built from the description. -/
theorem profile_extraction_falls_back (resp : Except (List Char) (List Char))
    (parse : List Char → Except (List Char) Json) (desc : List Char)
    (h : (∃ e, resp = Except.error e) ∨
         (∃ r e, resp = Except.ok r ∧
            parse (extract_json_from_text r) = Except.error e) ∨
         (∃ r j e, resp = Except.ok r ∧
            parse (extract_json_from_text r) = Except.ok j ∧
            fixProfile desc j = Except.error e)) :
    extract_project_profile resp parse desc = create_fallback_profile desc := by
  rcases h with ⟨e, he⟩ | ⟨r, e, hr, hp⟩ | ⟨r, j, e, hr, hp, hf⟩
  · subst he
    rfl
  · subst hr
    unfold extract_project_profile
    simp only [runModelPath, hp]
  · subst hr
    unfold extract_project_profile
    simp only [runModelPath, hp, hf]

/-- Witness for `profile_extraction_falls_back` with a failing backend. -/
theorem profile_extraction_falls_back_witness :
    extract_project_profile (Except.error (("backend down").toList))
      (fun _ => Except.error (("bad json").toList)) (("hi").toList) =
    create_fallback_profile (("hi").toList) :=
  profile_extraction_falls_back _ _ _ (Or.inl ⟨_, rfl⟩)

/- ===================================================================
   Claim C4 — the five tech-stack keys
   =================================================================== -/

/-- The five fixed tech-stack key names. -/
def fiveTechKeys : List (List Char) :=
  [("frontend").toList, ("backend").toList, ("database").toList,
   ("proxy").toList, ("hosting").toList]

/-- Does a value carry exactly the five fixed tech-stack keys (every one
present, and no key outside the five)? -/
def hasFiveKeys : Json → Bool
  | .obj fs => fiveTechKeys.all (fun k => dictHas fs k) &&
      fs.all (fun kv => fiveTechKeys.contains kv.1)
  | _ => false

/-- Is a value a JSON object (a Python dict)? -/
def isObjJson : Json → Bool
  | .obj _ => true
  | _ => false

/-- The tech_stack entry of a profile dict. -/
def techStackOf (p : Dict) : Json :=
  (dictGet p techKey).getD Json.null

lemma dictGet_fixName_tech (d : Dict) :
    dictGet (fixName d) techKey = dictGet d techKey := by
  unfold fixName
  split
  · rfl
  · rw [dictGet_set_ne _ _ _ _ (by decide)]

lemma dictGet_fixBudget_tech {d d' : Dict} (h : fixBudget d = some d') :
    dictGet d' techKey = dictGet d techKey := by
  unfold fixBudget at h
  split at h
  · injection h with h
    rw [← h, dictGet_set_ne _ _ _ _ (by decide)]
  · rcases Option.map_eq_some'.mp h with ⟨q, _, h2⟩
    rw [← h2, dictGet_set_ne _ _ _ _ (by decide)]

lemma dictGet_fixDescription_tech (desc : List Char) (d : Dict) :
    dictGet (fixDescription desc d) techKey = dictGet d techKey := by
  unfold fixDescription
  split
  · rfl
  · rw [dictGet_set_ne _ _ _ _ (by decide)]

lemma dictGet_fixNfr_tech (d : Dict) :
    dictGet (fixNfr d) techKey = dictGet d techKey := by
  unfold fixNfr
  split
  · rw [dictGet_set_ne _ _ _ _ (by decide)]
  · rfl
  · rw [dictGet_set_ne _ _ _ _ (by decide)]

lemma techStackOf_normalizeTechStep {d : Dict} {ts : Json}
    (h : dictGet d techKey = some ts) :
    techStackOf (normalizeTechStep d) = normalizeTech ts := by
  unfold normalizeTechStep
  rw [h]
  unfold techStackOf
  rw [dictGet_set_self]
  rfl

/-- Claim C4, corrected.  The fallback path always produces a tech_stack
with exactly the five fixed keys.  On the model path the five-key shape
is guaranteed only when the parsed profile has no `tech_stack` key or a
non-dict value there (the five-slot default is then installed); a
model-supplied `tech_stack` dict is kept as-is apart from lowercasing its
string values, so its key set is whatever the model returned —
`tech_stack_five_keys_counterexample` exhibits a returned profile whose
tech_stack has a single foreign key. -/
theorem tech_stack_key_policy (desc : List Char) (fields : Dict) (p : Dict)
    (hfix : fixProfile desc (Json.obj fields) = Except.ok p) :
    hasFiveKeys (techStackOf (create_fallback_profile desc)) = true ∧
    hasFiveKeys defaultTechStack = true ∧
    (dictGet fields techKey = none → techStackOf p = defaultTechStack) ∧
    (∀ o, dictGet fields techKey = some o → isObjJson o = false →
       techStackOf p = defaultTechStack) ∧
    (∀ ts, dictGet fields techKey = some (Json.obj ts) →
       techStackOf p = normalizeTech (Json.obj ts)) := by
  simp only [fixProfile] at hfix
  cases hb : fixBudget (fixName fields) with
  | none => rw [hb] at hfix; cases hfix
  | some p2 =>
    rw [hb] at hfix
    injection hfix with hfix
    have htech2 : dictGet p2 techKey = dictGet fields techKey := by
      rw [dictGet_fixBudget_tech hb, dictGet_fixName_tech]
    have hfallback : hasFiveKeys (techStackOf (create_fallback_profile desc)) = true := by
      unfold create_fallback_profile techStackOf
      rw [dictGet_cons_ne (by decide), dictGet_cons_ne (by decide),
        dictGet_cons_ne (by decide), dictGet_cons_self]
      rfl
    refine ⟨hfallback, by decide, ?_, ?_, ?_⟩
    · intro hnone
      have h3 : dictGet (fixDescription desc p2) techKey = none := by
        rw [dictGet_fixDescription_tech, htech2, hnone]
      have h4 : dictGet (fixTech (fixDescription desc p2)) techKey =
          some defaultTechStack := by
        unfold fixTech
        rw [h3, dictGet_set_self]
      have h5 : dictGet (fixNfr (fixTech (fixDescription desc p2))) techKey =
          some defaultTechStack := by
        rw [dictGet_fixNfr_tech, h4]
      rw [← hfix, techStackOf_normalizeTechStep h5]
      rfl
    · intro o ho hno
      have h3 : dictGet (fixDescription desc p2) techKey = some o := by
        rw [dictGet_fixDescription_tech, htech2, ho]
      have h4 : dictGet (fixTech (fixDescription desc p2)) techKey =
          some defaultTechStack := by
        unfold fixTech
        rw [h3]
        cases o with
        | obj ts => simp [isObjJson] at hno
        | null => rw [dictGet_set_self]
        | bool b => rw [dictGet_set_self]
        | num q => rw [dictGet_set_self]
        | str s => rw [dictGet_set_self]
        | arr xs => rw [dictGet_set_self]
      have h5 : dictGet (fixNfr (fixTech (fixDescription desc p2))) techKey =
          some defaultTechStack := by
        rw [dictGet_fixNfr_tech, h4]
      rw [← hfix, techStackOf_normalizeTechStep h5]
      rfl
    · intro ts hts
      have h3 : dictGet (fixDescription desc p2) techKey = some (Json.obj ts) := by
        rw [dictGet_fixDescription_tech, htech2, hts]
      have h4 : dictGet (fixTech (fixDescription desc p2)) techKey =
          some (Json.obj ts) := by
        unfold fixTech
        rw [h3]
        exact h3
      have h5 : dictGet (fixNfr (fixTech (fixDescription desc p2))) techKey =
          some (Json.obj ts) := by
        rw [dictGet_fixNfr_tech, h4]
      rw [← hfix, techStackOf_normalizeTechStep h5]

/-- Counterexample to claim C4 as stated: when the model path succeeds
with a parsed profile whose tech_stack is the dict `{"cdn": "X"}`, the
returned ProjectProfile keeps that single-key mapping — the five fixed
keys are absent. -/
theorem tech_stack_five_keys_counterexample :
    techStackOf (extract_project_profile (Except.ok (("x").toList))
      (fun _ => Except.ok (Json.obj
        [(techKey, Json.obj [(("cdn").toList, Json.str (("X").toList))])]))
      (("d").toList)) =
      Json.obj [(("cdn").toList, Json.str (("x").toList))] ∧
    hasFiveKeys (Json.obj [(("cdn").toList, Json.str (("x").toList))]) = false := by
  exact ⟨rfl, rfl⟩

/-- Witness for `tech_stack_key_policy` at a parsed profile with no
tech_stack key. -/
theorem tech_stack_key_policy_witness :
    hasFiveKeys (techStackOf (create_fallback_profile (("w").toList))) = true ∧
    hasFiveKeys defaultTechStack = true ∧
    (dictGet ([] : Dict) techKey = none →
       techStackOf (([(nameKey, Json.str (("Cloud Project").toList)),
         (budgetKey, Json.num 5000), (descKey, Json.str (("w").toList)),
         (techKey, defaultTechStack), (nfrKey, Json.arr [])]) : Dict) =
         defaultTechStack) ∧
    (∀ o, dictGet ([] : Dict) techKey = some o → isObjJson o = false →
       techStackOf (([(nameKey, Json.str (("Cloud Project").toList)),
         (budgetKey, Json.num 5000), (descKey, Json.str (("w").toList)),
         (techKey, defaultTechStack), (nfrKey, Json.arr [])]) : Dict) =
         defaultTechStack) ∧
    (∀ ts, dictGet ([] : Dict) techKey = some (Json.obj ts) →
       techStackOf (([(nameKey, Json.str (("Cloud Project").toList)),
         (budgetKey, Json.num 5000), (descKey, Json.str (("w").toList)),
         (techKey, defaultTechStack), (nfrKey, Json.arr [])]) : Dict) =
         normalizeTech (Json.obj ts)) :=
  tech_stack_key_policy (("w").toList) [] _ rfl

/- ===================================================================
   Claim C9 — call_llm retry behaviour
   =================================================================== -/

lemma callLoop_succ {ε α : Type} (f : Nat → Except ε α)
    (retries rem attempt : Nat) :
    callLoop f retries (rem + 1) attempt =
      match f attempt with
      | .ok a => ⟨1, [], .returned (some a)⟩
      | .error e =>
        if attempt = retries - 1 then ⟨1, [], .raised e⟩
        else
          let t := callLoop f retries rem (attempt + 1)
          ⟨t.attempts + 1, 2 :: t.sleeps, t.outcome⟩ := rfl

lemma callLoop_all_fail {ε α : Type} (f : Nat → Except ε α) (retries : Nat) :
    ∀ (rem attempt : Nat), attempt + rem = retries → 1 ≤ rem →
      (∀ i, attempt ≤ i → i < retries → ∃ e, f i = Except.error e) →
      ∃ e, f (retries - 1) = Except.error e ∧
        callLoop f retries rem attempt =
          ⟨rem, List.replicate (rem - 1) 2, CallOutcome.raised e⟩ := by
  intro rem
  induction rem with
  | zero =>
    intro attempt h1 h2
    omega
  | succ r ih =>
    intro attempt hsum hpos hfail
    obtain ⟨e, hfe⟩ := hfail attempt (Nat.le_refl _) (by omega)
    cases r with
    | zero =>
      have hatt : attempt = retries - 1 := by omega
      refine ⟨e, by rw [← hatt]; exact hfe, ?_⟩
      rw [callLoop_succ, hfe]
      simp [hatt]
    | succ r' =>
      have hattne : ¬ attempt = retries - 1 := by omega
      obtain ⟨e', hfe', hloop⟩ := ih (attempt + 1) (by omega) (by omega)
        (fun i hi1 hi2 => hfail i (by omega) hi2)
      refine ⟨e', hfe', ?_⟩
      rw [callLoop_succ, hfe, hloop]
      simp [hattne, List.replicate_succ]

/-- Claim C9, confirmed (reading "retries up to `retries` times" as a
bound on the attempts made).  When the key is configured and every
backend attempt fails, `call_llm` makes exactly `retries` attempts
(`retries ≥ 1`; the default is 2), sleeps 2 seconds between consecutive
attempts (`retries - 1` pauses), and re-raises the error of the final
attempt. -/
theorem call_llm_retry_exhaustion {ε α : Type} (f : Nat → Except ε α)
    (retries : Nat) (h1 : 1 ≤ retries)
    (hfail : ∀ i, i < retries → ∃ e, f i = Except.error e) :
    ∃ e, f (retries - 1) = Except.error e ∧
      call_llm true f retries =
        ⟨retries, List.replicate (retries - 1) 2, CallOutcome.raised e⟩ := by
  obtain ⟨e, hfe, hloop⟩ := callLoop_all_fail f retries retries 0 (by omega) h1
    (fun i _ hi => hfail i hi)
  refine ⟨e, hfe, ?_⟩
  unfold call_llm
  rw [if_pos rfl]
  exact hloop

/-- Witness for `call_llm_retry_exhaustion`: two always-failing attempts,
one 2-second pause, the final error re-raised. -/
theorem call_llm_retry_exhaustion_witness :
    ∃ e, (fun _ : Nat =>
        (Except.error (("boom").toList) : Except (List Char) (List Char))) (2 - 1) =
        Except.error e ∧
      call_llm true (fun _ : Nat =>
        (Except.error (("boom").toList) : Except (List Char) (List Char))) 2 =
        ⟨2, List.replicate 1 2, CallOutcome.raised e⟩ :=
  call_llm_retry_exhaustion _ 2 (by omega) (fun i _ => ⟨_, rfl⟩)

/- ===================================================================
   Claims C1 and C5 — billing record validation
   =================================================================== -/

lemma checkFields_obj {fs : Dict} {l : List (List Char)}
    (h : checkFields (Json.obj fs) l = .allPresent) :
    ∀ f ∈ l, dictHas fs f = true := by
  induction l with
  | nil =>
    intro f hf
    cases hf
  | cons a rest ih =>
    intro f hf
    simp only [checkFields, jsonHasField] at h
    cases hda : dictHas fs a with
    | false =>
      rw [hda] at h
      exact FieldCheck.noConfusion h
    | true =>
      rw [hda] at h
      rcases List.mem_cons.mp hf with rfl | hf2
      · exact hda
      · exact ih h f hf2

lemma coerceBillingNum_val {v : Json} {q : ℚ} {v' : Json}
    (h : coerceBillingNum v = some (q, v')) : jsonNumVal? v' = some q := by
  cases v with
  | num q0 =>
    simp only [coerceBillingNum, Option.some_inj, Prod.mk.injEq] at h
    obtain ⟨h1, h2⟩ := h
    rw [← h2, ← h1]
    rfl
  | bool b =>
    simp only [coerceBillingNum, Option.some_inj, Prod.mk.injEq] at h
    obtain ⟨h1, h2⟩ := h
    rw [← h2, ← h1]
    cases b <;> rfl
  | str s =>
    simp only [coerceBillingNum, Option.map_eq_some'] at h
    obtain ⟨q0, _, h2⟩ := h
    rw [Prod.mk.injEq] at h2
    obtain ⟨h3, h4⟩ := h2
    rw [← h4, ← h3]
    rfl
  | null => exact absurd h (by simp [coerceBillingNum])
  | arr xs => exact absurd h (by simp [coerceBillingNum])
  | obj fs => exact absurd h (by simp [coerceBillingNum])

lemma validateFields_ok_props {fs : Dict} {d : Dict}
    (h : validateFields fs = RecResult.ok d) :
    (∃ fsrest : Json × Json,
       d = dictSet (dictSet fs costKey fsrest.1) qtyKey fsrest.2) ∧
    (∃ c q, dictGet d costKey = some c ∧ jsonNumVal? c = some q ∧ 0 ≤ q) ∧
    (∃ u q, dictGet d qtyKey = some u ∧ jsonNumVal? u = some q) := by
  unfold validateFields at h
  split at h
  · exact RecResult.noConfusion h
  · rename_i cv hc
    split at h
    · exact RecResult.noConfusion h
    · rename_i q cv' hcn
      split at h
      · exact RecResult.noConfusion h
      · rename_i hneg
        split at h
        · exact RecResult.noConfusion h
        · rename_i uv hu
          split at h
          · exact RecResult.noConfusion h
          · rename_i q2 uv' hun
            injection h with h
            subst h
            refine ⟨⟨(cv', uv'), rfl⟩,
              ⟨cv', q, ?_, coerceBillingNum_val hcn, not_lt.mp hneg⟩,
              ⟨uv', q2, dictGet_set_self _ _ _, coerceBillingNum_val hun⟩⟩
            rw [dictGet_set_ne _ _ _ _ (by decide), dictGet_set_self]

lemma validateRecord_ok_props {r : Json} {d : Dict}
    (h : validateRecord r = RecResult.ok d) :
    (∀ f ∈ requiredBillingFields, dictHas d f = true) ∧
    (∃ c q, dictGet d costKey = some c ∧ jsonNumVal? c = some q ∧ 0 ≤ q) ∧
    (∃ u q, dictGet d qtyKey = some u ∧ jsonNumVal? u = some q) := by
  unfold validateRecord at h
  cases hcf : checkFields r requiredBillingFields with
  | typeError =>
    rw [hcf] at h
    exact RecResult.noConfusion h
  | missingField =>
    rw [hcf] at h
    exact RecResult.noConfusion h
  | allPresent =>
    rw [hcf] at h
    cases r with
    | obj fs =>
      have h2 : validateFields fs = RecResult.ok d := h
      obtain ⟨⟨pair, hd⟩, hcost, hqty⟩ := validateFields_ok_props h2
      refine ⟨?_, hcost, hqty⟩
      intro f hf
      rw [hd]
      exact dictHas_set _ _ _ _
        (dictHas_set _ _ _ _ (checkFields_obj hcf f hf))
    | null => exact RecResult.noConfusion h
    | bool b => exact RecResult.noConfusion h
    | num q => exact RecResult.noConfusion h
    | str s => exact RecResult.noConfusion h
    | arr xs => exact RecResult.noConfusion h

lemma validateAll_mem {records : List Json} {valids : List Dict}
    (h : validateAll records = some valids) :
    ∀ d ∈ valids, ∃ r ∈ records, validateRecord r = RecResult.ok d := by
  induction records generalizing valids with
  | nil =>
    simp only [validateAll, Option.some_inj] at h
    subst h
    intro d hd
    cases hd
  | cons r rest ih =>
    unfold validateAll at h
    cases hv : validateRecord r with
    | abort =>
      rw [hv] at h
      exact Option.noConfusion h
    | skip =>
      rw [hv] at h
      intro d hd
      obtain ⟨r', hr', hok⟩ := ih h d hd
      exact ⟨r', List.mem_cons_of_mem _ hr', hok⟩
    | ok d0 =>
      rw [hv] at h
      cases hrest : validateAll rest with
      | none =>
        rw [hrest] at h
        exact Option.noConfusion h
      | some vs =>
        rw [hrest] at h
        simp only [Option.map_some', Option.some_inj] at h
        subst h
        intro d hd
        rcases List.mem_cons.mp hd with rfl | hd2
        · exact ⟨r, List.mem_cons_self _ _, hv⟩
        · obtain ⟨r', hr', hok⟩ := ih hrest d hd2
          exact ⟨r', List.mem_cons_of_mem _ hr', hok⟩

/-- Claim C1, corrected.  Every record surviving the validation loop of
`generate_mock_billing` has all nine required fields, a numeric (number
or boolean — Python's `isinstance(v, (int, float))` admits `bool`)
`cost_inr` whose value is ≥ 0, and a numeric `usage_quantity` — but NO
positivity constraint on `usage_quantity`: the loop coerces it to a
number and never checks its sign (the unused helper
`validate_billing_record` does, but `generate_mock_billing` never calls
it).  `billing_qty_counterexample` exhibits an accepted batch with a
surviving record of `usage_quantity = 0`. -/
theorem billing_valid_records_fields (parsed : Except (List Char) Json)
    (valids : List Dict)
    (h : generate_mock_billing parsed = Except.ok valids) :
    ∀ d ∈ valids,
      (∀ f ∈ requiredBillingFields, dictHas d f = true) ∧
      (∃ c q, dictGet d costKey = some c ∧ jsonNumVal? c = some q ∧ 0 ≤ q) ∧
      (∃ u q, dictGet d qtyKey = some u ∧ jsonNumVal? u = some q) := by
  intro d hd
  cases parsed with
  | error e => exact Except.noConfusion h
  | ok j =>
    cases j with
    | arr records =>
      simp only [generate_mock_billing] at h
      split at h
      · exact Except.noConfusion h
      · cases hva : validateAll (records.take 20) with
        | none =>
          simp only [hva] at h
          exact Except.noConfusion h
        | some vs =>
          simp only [hva] at h
          split at h
          · exact Except.noConfusion h
          · injection h with h
            subst h
            obtain ⟨r, _, hok⟩ := validateAll_mem hva d hd
            exact validateRecord_ok_props hok
    | null => exact Except.noConfusion h
    | bool b => exact Except.noConfusion h
    | num q => exact Except.noConfusion h
    | str s => exact Except.noConfusion h
    | obj fs => exact Except.noConfusion h

/-- A fully valid parsed billing record (as `json.loads` would produce
it). -/
def okBillingRec : Json := Json.obj
  [(("month".toList), Json.str ("2025-01".toList)),
   (("service".toList), Json.str ("EC2".toList)),
   (("resource_id".toList), Json.str ("i-web-01".toList)),
   (("region".toList), Json.str ("ap-south-1".toList)),
   (("usage_type".toList), Json.str ("t3.medium".toList)),
   (qtyKey, Json.num 720),
   (("unit".toList), Json.str ("hours".toList)),
   (costKey, Json.num 1200),
   (("desc".toList), Json.str ("web server".toList))]

/-- The field list of `okBillingRec` (validation leaves it unchanged). -/
def okBillingFields : Dict :=
  [(("month".toList), Json.str ("2025-01".toList)),
   (("service".toList), Json.str ("EC2".toList)),
   (("resource_id".toList), Json.str ("i-web-01".toList)),
   (("region".toList), Json.str ("ap-south-1".toList)),
   (("usage_type".toList), Json.str ("t3.medium".toList)),
   (qtyKey, Json.num 720),
   (("unit".toList), Json.str ("hours".toList)),
   (costKey, Json.num 1200),
   (("desc".toList), Json.str ("web server".toList))]

/-- A parsed billing record with `usage_quantity = 0` and every other
field valid. -/
def zeroQtyBillingRec : Json := Json.obj
  [(("month".toList), Json.str ("2025-01".toList)),
   (("service".toList), Json.str ("S3".toList)),
   (("resource_id".toList), Json.str ("bucket-1".toList)),
   (("region".toList), Json.str ("ap-south-1".toList)),
   (("usage_type".toList), Json.str ("Standard".toList)),
   (qtyKey, Json.num 0),
   (("unit".toList), Json.str ("GB".toList)),
   (costKey, Json.num 150),
   (("desc".toList), Json.str ("storage".toList))]

/-- The field list of `zeroQtyBillingRec`. -/
def zeroQtyBillingFields : Dict :=
  [(("month".toList), Json.str ("2025-01".toList)),
   (("service".toList), Json.str ("S3".toList)),
   (("resource_id".toList), Json.str ("bucket-1".toList)),
   (("region".toList), Json.str ("ap-south-1".toList)),
   (("usage_type".toList), Json.str ("Standard".toList)),
   (qtyKey, Json.num 0),
   (("unit".toList), Json.str ("GB".toList)),
   (costKey, Json.num 150),
   (("desc".toList), Json.str ("storage".toList))]

/-- An 11-good-plus-one-zero-quantity batch. -/
def c1Batch : List Json := List.replicate 11 okBillingRec ++ [zeroQtyBillingRec]

/-- Counterexample to claim C1 as stated: the 12-record batch `c1Batch`
is returned successfully, and its surviving record
`zeroQtyBillingFields` has `usage_quantity = 0`, violating
`usage_quantity > 0`. -/
theorem billing_qty_counterexample :
    generate_mock_billing (Except.ok (Json.arr c1Batch)) =
      Except.ok (List.replicate 11 okBillingFields ++ [zeroQtyBillingFields]) ∧
    dictGet zeroQtyBillingFields qtyKey = some (Json.num 0) ∧
    ¬ ((0 : ℚ) > 0) := by
  refine ⟨rfl, rfl, by norm_num⟩

/-- Witness for `billing_valid_records_fields` on a 12-record batch of
copies of `okBillingRec`. -/
theorem billing_valid_records_fields_witness :
    (∀ f ∈ requiredBillingFields, dictHas okBillingFields f = true) ∧
    (∃ c q, dictGet okBillingFields costKey = some c ∧
       jsonNumVal? c = some q ∧ 0 ≤ q) ∧
    (∃ u q, dictGet okBillingFields qtyKey = some u ∧ jsonNumVal? u = some q) :=
  billing_valid_records_fields (Except.ok (Json.arr (List.replicate 12 okBillingRec)))
    (List.replicate 12 okBillingFields) rfl okBillingFields
    (by simp [List.mem_replicate])

lemma validateAll_length {records : List Json} {valids : List Dict}
    (h : validateAll records = some valids) :
    valids.length = countValid records := by
  induction records generalizing valids with
  | nil =>
    simp only [validateAll, Option.some_inj] at h
    subst h
    rfl
  | cons r rest ih =>
    unfold validateAll at h
    unfold countValid
    cases hv : validateRecord r with
    | abort =>
      rw [hv] at h
      exact Option.noConfusion h
    | skip =>
      rw [hv] at h
      rw [List.filter_cons]
      simp only [hv]
      exact ih h
    | ok d0 =>
      rw [hv] at h
      cases hrest : validateAll rest with
      | none =>
        rw [hrest] at h
        exact Option.noConfusion h
      | some vs =>
        rw [hrest] at h
        simp only [Option.map_some', Option.some_inj] at h
        subst h
        rw [List.filter_cons]
        simp only [hv, List.length_cons, if_true]
        rw [ih hrest]
        rfl

/-- Claim C5, confirmed.  Whenever fewer than 12 records of a parsed
billing batch survive per-record validation (counted over the
first-20-records trim the code applies before validating),
`generate_mock_billing` raises an error — it never returns the surviving
records as a partial success.  (A batch shorter than 12, or one whose
validation aborts on a `TypeError`, also errors.) -/
theorem billing_batch_threshold (records : List Json)
    (h : countValid (records.take 20) < 12) :
    ∃ e, generate_mock_billing (Except.ok (Json.arr records)) =
      Except.error e := by
  simp only [generate_mock_billing]
  split
  · exact ⟨_, rfl⟩
  · cases hva : validateAll (records.take 20) with
    | none =>
      simp only [hva]
      exact ⟨_, rfl⟩
    | some vs =>
      have hlen : vs.length < 12 := by
        rw [validateAll_length hva]
        exact h
      simp only [hva]
      rw [if_pos hlen]
      exact ⟨_, rfl⟩

/-- A parsed billing record missing the `desc` field. -/
def missingDescBillingRec : Json := Json.obj
  [(("month".toList), Json.str ("2025-01".toList)),
   (("service".toList), Json.str ("S3".toList)),
   (("resource_id".toList), Json.str ("bucket-2".toList)),
   (("region".toList), Json.str ("ap-south-1".toList)),
   (("usage_type".toList), Json.str ("Standard".toList)),
   (qtyKey, Json.num 5),
   (("unit".toList), Json.str ("GB".toList)),
   (costKey, Json.num 150)]

/-- The spec's 10-valid-plus-5-invalid batch. -/
def c5Batch : List Json :=
  List.replicate 10 okBillingRec ++ List.replicate 5 missingDescBillingRec

/-- Witness for `billing_batch_threshold` on the spec's
10-valid-plus-5-invalid batch. -/
theorem billing_batch_threshold_witness :
    ∃ e, generate_mock_billing (Except.ok (Json.arr c5Batch)) =
      Except.error e :=
  billing_batch_threshold c5Batch
    (by
      have h : countValid (c5Batch.take 20) = 10 := rfl
      omega)

/- ===================================================================
   Claim C2 — summary aggregation vs validated recommendations
   =================================================================== -/

/-- Claim C2, corrected.  The three summary numbers
`total_potential_savings`, `savings_percentage` and
`high_impact_recommendations` of a successfully returned report are
computed (lines 181-194) from the recommendation list AS PARSED, BEFORE
the per-recommendation validation of lines 201-228 filters it; only
`recommendations_count` is refreshed from the validated list (line 231).
Re-running the aggregation over the final validated list can therefore
differ whenever validation dropped a recommendation carrying
`potential_savings` — see `summary_counterexample`. -/
theorem summary_from_parsed_recommendations (total_cost : ℚ)
    (parsed : Except (List Char) Json) (r : Report)
    (h : analyze_costs_and_recommend total_cost parsed = Except.ok r) :
    ∃ fs recs s, parsed = Except.ok (Json.obj fs) ∧
      dictGet fs recsKey = some (Json.arr recs) ∧
      computeSummary recs total_cost = some s ∧
      r.summary.total_potential_savings = s.total_potential_savings ∧
      r.summary.savings_percentage = s.savings_percentage ∧
      r.summary.high_impact_recommendations = s.high_impact_recommendations ∧
      r.recommendations = validateRecs recs ∧
      r.summary.recommendations_count = (validateRecs recs).length := by
  cases parsed with
  | error e => exact Except.noConfusion h
  | ok j =>
    cases j with
    | obj fs =>
      simp only [analyze_costs_and_recommend] at h
      cases hrk : dictGet fs recsKey with
      | none =>
        simp only [hrk] at h
        exact Except.noConfusion h
      | some v =>
        cases v with
        | arr recs =>
          simp only [hrk] at h
          cases hcs : computeSummary recs total_cost with
          | none =>
            simp only [hcs] at h
            exact Except.noConfusion h
          | some summ =>
            simp only [hcs] at h
            injection h with h
            subst h
            exact ⟨fs, recs, summ, rfl, hrk, hcs, rfl, rfl, rfl, rfl, rfl⟩
        | null =>
          simp only [hrk] at h
          exact Except.noConfusion h
        | bool b =>
          simp only [hrk] at h
          exact Except.noConfusion h
        | num q =>
          simp only [hrk] at h
          exact Except.noConfusion h
        | str s =>
          simp only [hrk] at h
          exact Except.noConfusion h
        | obj fs2 =>
          simp only [hrk] at h
          exact Except.noConfusion h
    | null => exact Except.noConfusion h
    | bool b => exact Except.noConfusion h
    | num q => exact Except.noConfusion h
    | str s => exact Except.noConfusion h
    | arr xs => exact Except.noConfusion h

/-- A fully valid parsed recommendation with `potential_savings = 100`. -/
def goodRecFields : Dict :=
  [(("title".toList), Json.str ("Use the free tier".toList)),
   (("service".toList), Json.str ("EC2".toList)),
   (currentCostKey, Json.num 1000),
   (savingsKey, Json.num 100),
   (("recommendation_type".toList), Json.str ("free_tier".toList)),
   (descKey, Json.str ("Move to the free tier".toList)),
   (("implementation_effort".toList), Json.str ("low".toList)),
   (("risk_level".toList), Json.str ("low".toList)),
   (stepsKey, Json.arr [Json.str ("step 1".toList)]),
   (providersKey, Json.arr [Json.str ("AWS".toList)])]

/-- A parsed recommendation carrying `potential_savings = 500` but missing
the required `title` field, so validation drops it. -/
def noTitleRecFields : Dict :=
  [(("service".toList), Json.str ("RDS".toList)),
   (currentCostKey, Json.num 900),
   (savingsKey, Json.num 500),
   (("recommendation_type".toList), Json.str ("open_source".toList)),
   (descKey, Json.str ("Self-host the database".toList)),
   (("implementation_effort".toList), Json.str ("low".toList)),
   (("risk_level".toList), Json.str ("low".toList)),
   (stepsKey, Json.arr [Json.str ("step 1".toList)]),
   (providersKey, Json.arr [Json.str ("Self-hosted".toList)])]

/-- The parsed model report for the C2 counterexample. -/
def c2Parsed : Except (List Char) Json :=
  Except.ok (Json.obj
    [(recsKey, Json.arr [Json.obj goodRecFields, Json.obj noTitleRecFields])])

lemma getSavings_goodRec : getSavings (Json.obj goodRecFields) = some 100 := rfl

lemma getSavings_noTitleRec : getSavings (Json.obj noTitleRecFields) = some 500 := rfl

lemma computeSummary_c2pair :
    computeSummary [Json.obj goodRecFields, Json.obj noTitleRecFields] 1000 =
      some ⟨600, 60, 2, 1⟩ := by
  have hsum : sumSavings [Json.obj goodRecFields, Json.obj noTitleRecFields] =
      some 600 := by
    simp only [sumSavings, getSavings_goodRec, getSavings_noTitleRec]
    norm_num
  have hlt1 : ¬ ((1000 : ℚ) * (1 / 10) < 100) := by norm_num
  have hlt2 : ((1000 : ℚ) * (1 / 10) < 500) := by norm_num
  have hpos : (0 : ℚ) < 1000 := by norm_num
  simp only [computeSummary, hsum, hpos, List.countP_cons, List.countP_nil,
    getSavings_goodRec, getSavings_noTitleRec, decide_eq_true_eq, hlt1, hlt2,
    if_true, if_false, List.length_cons, List.length_nil, Option.some_inj,
    Summary.mk.injEq]
  norm_num [round2, Int.floor_eq_iff]

lemma computeSummary_c2good :
    computeSummary [Json.obj goodRecFields] 1000 = some ⟨100, 10, 1, 0⟩ := by
  have hsum : sumSavings [Json.obj goodRecFields] = some 100 := by
    simp only [sumSavings, getSavings_goodRec]
    norm_num
  have hlt1 : ¬ ((1000 : ℚ) * (1 / 10) < 100) := by norm_num
  have hpos : (0 : ℚ) < 1000 := by norm_num
  simp only [computeSummary, hsum, hpos, List.countP_cons, List.countP_nil,
    getSavings_goodRec, decide_eq_true_eq, hlt1, if_true, if_false,
    List.length_cons, List.length_nil, Option.some_inj, Summary.mk.injEq]
  norm_num [round2, Int.floor_eq_iff]

lemma analyze_c2Parsed_eval :
    analyze_costs_and_recommend 1000 c2Parsed =
      Except.ok ⟨[goodRecFields], ⟨600, 60, 1, 1⟩⟩ := by
  show analyze_costs_and_recommend 1000 (Except.ok (Json.obj
    [(recsKey, Json.arr [Json.obj goodRecFields, Json.obj noTitleRecFields])])) = _
  have hget : dictGet
      [(recsKey, Json.arr [Json.obj goodRecFields, Json.obj noTitleRecFields])]
      recsKey = some (Json.arr [Json.obj goodRecFields, Json.obj noTitleRecFields]) :=
    rfl
  have hvalid : validateRecs [Json.obj goodRecFields, Json.obj noTitleRecFields] =
      [goodRecFields] := rfl
  simp only [analyze_costs_and_recommend, hget, computeSummary_c2pair, hvalid]
  rfl

/-- Counterexample to claim C2 as stated: against a billing total of
1000, the returned report's summary says `total_potential_savings = 600`
(the 500 of the dropped title-less recommendation included, and
`high_impact_recommendations = 1` counts it too), while re-running the
aggregation over the final validated list `[goodRecFields]` yields 100 —
the stored summary does not equal the aggregation of the validated
recommendations. -/
theorem summary_counterexample :
    analyze_costs_and_recommend 1000 c2Parsed =
      Except.ok ⟨[goodRecFields], ⟨600, 60, 1, 1⟩⟩ ∧
    (computeSummary [Json.obj goodRecFields] 1000).map
      Summary.total_potential_savings = some 100 ∧
    ((600 : ℚ) ≠ 100) := by
  refine ⟨analyze_c2Parsed_eval, ?_, by norm_num⟩
  rw [computeSummary_c2good]
  rfl

lemma analyze_c2good_eval :
    analyze_costs_and_recommend 1000
      (Except.ok (Json.obj [(recsKey, Json.arr [Json.obj goodRecFields])])) =
      Except.ok ⟨[goodRecFields], ⟨100, 10, 1, 0⟩⟩ := by
  have hget : dictGet [(recsKey, Json.arr [Json.obj goodRecFields])] recsKey =
      some (Json.arr [Json.obj goodRecFields]) := rfl
  have hvalid : validateRecs [Json.obj goodRecFields] = [goodRecFields] := rfl
  simp only [analyze_costs_and_recommend, hget, computeSummary_c2good, hvalid]
  rfl

/-- Witness for `summary_from_parsed_recommendations` on an all-valid
report. -/
theorem summary_from_parsed_recommendations_witness :
    ∃ fs recs s,
      (Except.ok (Json.obj [(recsKey, Json.arr [Json.obj goodRecFields])]) :
        Except (List Char) Json) = Except.ok (Json.obj fs) ∧
      dictGet fs recsKey = some (Json.arr recs) ∧
      computeSummary recs 1000 = some s ∧
      (Report.mk [goodRecFields] ⟨100, 10, 1, 0⟩).summary.total_potential_savings =
        s.total_potential_savings ∧
      (Report.mk [goodRecFields] ⟨100, 10, 1, 0⟩).summary.savings_percentage =
        s.savings_percentage ∧
      (Report.mk [goodRecFields] ⟨100, 10, 1, 0⟩).summary.high_impact_recommendations =
        s.high_impact_recommendations ∧
      (Report.mk [goodRecFields] ⟨100, 10, 1, 0⟩).recommendations =
        validateRecs recs ∧
      (Report.mk [goodRecFields] ⟨100, 10, 1, 0⟩).summary.recommendations_count =
        (validateRecs recs).length :=
  summary_from_parsed_recommendations 1000
    (Except.ok (Json.obj [(recsKey, Json.arr [Json.obj goodRecFields])]))
    (Report.mk [goodRecFields] ⟨100, 10, 1, 0⟩) analyze_c2good_eval

end CloudOpt
